import Mathlib

/-!
Verification of the slot-mapping / plan-synthesis / plan-validation pipeline
of the data_agent repository.

The Python modules `mapper/mapper.py`, `planner/planner.py` and
`planner/plan_validator.py` are shallowly embedded below.  Dynamic Python
values that can appear inside a call-parameter dictionary are modelled by the
`Value` type (string, int, JSON null, list of strings); a missing dictionary
key is modelled by `Option`/an absent association-list entry.  Python
truthiness is modelled by `truthyV`.  The regular-expression searches of the
source are implemented character-by-character with the same greedy /
backtracking / leftmost-match semantics on the character classes that occur in
the repository text (ASCII plus CJK ideographs; the word-character class used
by the `\b` boundary is modelled as ASCII alphanumerics, underscore, and CJK
ideographs, which agrees with Python `\w` on every character the repository
manipulates).
-/

namespace DataAgent

/-- Scalar (JSON-ish) value stored in a call-parameter dictionary.
`vNone` is Python `None` / JSON `null`; `vStrList` covers the string-list
values used in plot configs. -/
inductive Value where
  | vStr (s : String)
  | vInt (n : Int)
  | vNone
  | vStrList (l : List String)
  deriving DecidableEq, Repr

open Value

/-- Python truthiness of a `Value` (`bool(v)`). -/
def truthyV : Value → Bool
  | vStr s => s ≠ ""
  | vInt n => n ≠ 0
  | vNone => false
  | vStrList l => l ≠ []

/-- Python `str(v)` for the values we manipulate. -/
def valueStr : Value → String
  | vStr s => s
  | vInt n => toString n
  | vNone => "None"
  | vStrList l => "[" ++ String.intercalate ", " (l.map fun s => "\x27" ++ s ++ "\x27") ++ "]"

/-- A parameter dictionary: association list keyed by parameter name.
Python dicts have unique keys; lookups return the first binding. -/
abbrev Params := List (String × Value)

/-- `p.get(k)`: first binding of `k`, if any. -/
def paramGet (ps : Params) (k : String) : Option Value :=
  match ps with
  | [] => none
  | (k₀, v₀) :: t => if k₀ = k then some v₀ else paramGet t k

/-- `k in p`. -/
def paramHas (ps : Params) (k : String) : Bool :=
  (paramGet ps k).isSome

/-- `p[k] = v`: overwrite the first binding of `k` in place, else append
(Python dict assignment keeps the original key position). -/
def paramSet (ps : Params) (k : String) (v : Value) : Params :=
  match ps with
  | [] => [(k, v)]
  | (k₀, v₀) :: t => if k₀ = k then (k, v) :: t else (k₀, v₀) :: paramSet t k v

/-- Python `repr`-style rendering of a list of strings, `str(list_of_str)`. -/
def pyReprStrList (l : List String) : String :=
  "[" ++ String.intercalate ", " (l.map fun s => "\x27" ++ s ++ "\x27") ++ "]"

/-! ### Python string comparison (lexicographic on code points) -/

/-- Python `a <= b` on lists of characters (lexicographic by code point). -/
def pyLeChars : List Char → List Char → Bool
  | [], _ => true
  | _ :: _, [] => false
  | a :: as, b :: bs =>
    if a.toNat < b.toNat then true
    else if b.toNat < a.toNat then false
    else pyLeChars as bs

/-- Python `a <= b` on strings. -/
def pyStrLe (a b : String) : Bool :=
  pyLeChars a.data b.data

theorem pyLeChars_total : ∀ (a b : List Char),
    pyLeChars a b = false → pyLeChars b a = true := by
  intro a
  induction a with
  | nil => intro b h; simp [pyLeChars] at h
  | cons x xs ih =>
    intro b h
    cases b with
    | nil => simp [pyLeChars]
    | cons y ys =>
      simp only [pyLeChars] at h ⊢
      by_cases hxy : x.toNat < y.toNat
      · simp [hxy] at h
      · by_cases hyx : y.toNat < x.toNat
        · simp [hyx]
        · simp [hxy, hyx] at h ⊢
          exact ih ys h

theorem pyStrLe_total (a b : String) (h : pyStrLe a b = false) :
    pyStrLe b a = true :=
  pyLeChars_total a.data b.data h

/-- Lexicographic comparison ignores a shared prefix. -/
theorem pyLeChars_append_left (xs : List Char) :
    ∀ a b, pyLeChars (xs ++ a) (xs ++ b) = pyLeChars a b := by
  induction xs with
  | nil => intro a b; rfl
  | cons c t ih =>
    intro a b
    simp only [List.cons_append, pyLeChars, lt_irrefl, if_false]
    simpa using ih a b

/-! ### Character classes -/

/-- Digit value of an ASCII digit character. -/
def dv (c : Char) : Nat := c.toNat - '0'.toNat

/-- Word character for the `\b` boundary: ASCII alphanumerics, underscore,
and CJK unified ideographs (the only characters of the repository text that
Python `\w` additionally matches). -/
def isWordChar (c : Char) : Bool :=
  c.isAlphanum || c = '_' || (0x3400 ≤ c.toNat && c.toNat ≤ 0x9FFF)

/-- Whitespace for `\s` / `str.strip` over the repository text. -/
def isSpaceChar (c : Char) : Bool :=
  c = ' ' || c = '\t' || c = '\n' || c = '\r'

/-- Greedy `\s*`: drop leading whitespace. -/
def dropSpaces (cs : List Char) : List Char :=
  cs.dropWhile isSpaceChar

/-! ### Substring search (`needle in haystack`) -/

/-- `needle` occurs as a prefix. -/
def isPrefixOfL : List Char → List Char → Bool
  | [], _ => true
  | _ :: _, [] => false
  | a :: as, b :: bs => a = b && isPrefixOfL as bs

/-- Python `needle in haystack` on char lists. -/
def containsL (needle : List Char) : List Char → Bool
  | [] => isPrefixOfL needle []
  | c :: cs => isPrefixOfL needle (c :: cs) || containsL needle cs

/-- Python `needle in haystack` on strings. -/
def strContains (hay needle : String) : Bool :=
  containsL needle.data hay.data

/-- Python `any(k in hay for k in ks)`. -/
def anyContains (hay : String) (ks : List String) : Bool :=
  ks.any fun k => strContains hay k

/-- Python `str.strip()` (drop whitespace at both ends).  Implemented on the
character list so that it reduces inside the kernel. -/
def pyStrip (s : String) : String :=
  ⟨((s.data.dropWhile isSpaceChar).reverse.dropWhile isSpaceChar).reverse⟩

/-- Python `str.lower()` (ASCII case folding; CJK characters are
untouched, as in Python). -/
def pyLower (s : String) : String :=
  ⟨s.data.map Char.toLower⟩

/-- Python `int(s)` on a plain (optionally negative) digit string; any
other string raises in the source. -/
def pyIntOfStr (s : String) : Option Int :=
  match s.data with
  | '-' :: ds =>
    if ds ≠ [] ∧ ds.all Char.isDigit then
      some (-(ds.foldl (fun a c => 10 * a + (dv c : Int)) 0))
    else none
  | ds =>
    if ds ≠ [] ∧ ds.all Char.isDigit then
      some (ds.foldl (fun a c => 10 * a + (dv c : Int)) 0)
    else none

/-- `{:02d}` formatting. -/
def pad2 (n : Nat) : String :=
  if n < 10 then "0" ++ Nat.repr n else Nat.repr n

/-! ### Regex machinery

Each concrete pattern of the source is compiled by hand to a
match-at-position function that returns the captured groups, the last
character consumed (needed to evaluate a following word boundary) and the
remaining characters.  Greedy quantifiers with backtracking are realised by
trying candidate parses longest-first with the whole continuation
(`firstSome`), which is exactly the Python `re` behaviour for these
patterns. -/

/-- First successful alternative. -/
def firstSome (l : List α) (f : α → Option β) : Option β :=
  match l with
  | [] => none
  | a :: t =>
    match f a with
    | some b => some b
    | none => firstSome t f

/-- Candidate parses of `(\d{1,2})`, greedy first: numeric value, last
character consumed, rest. -/
def take12 : List Char → List (Nat × Char × List Char)
  | [] => []
  | [a] => if a.isDigit then [(dv a, a, [])] else []
  | a :: b :: rest =>
    if a.isDigit then
      if b.isDigit then [(10 * dv a + dv b, b, rest), (dv a, a, b :: rest)]
      else [(dv a, a, b :: rest)]
    else []

/-- `(\d{4})`: exactly four digits. -/
def takeD4 : List Char → Option (Nat × List Char)
  | a :: b :: c :: d :: rest =>
    if a.isDigit && b.isDigit && c.isDigit && d.isDigit then
      some (1000 * dv a + 100 * dv b + 10 * dv c + dv d, rest)
    else none
  | _ => none

/-- Maximal run of digits for `(\d+)`: value, rest (none if no digit). -/
def takeDigits (cs : List Char) : Option (Nat × List Char) :=
  let ds := cs.takeWhile Char.isDigit
  if ds = [] then none
  else some (ds.foldl (fun a c => 10 * a + dv c) 0, cs.dropWhile Char.isDigit)

def isDashSlash (c : Char) : Bool := c = '-' || c = '/'

/-- `\b` evaluated before a word character. -/
def boundaryBefore : Option Char → Bool
  | none => true
  | some c => !isWordChar c

/-- `\b` evaluated after a word character. -/
def boundaryAfter : List Char → Bool
  | [] => true
  | c :: _ => !isWordChar c

/-- `(20\d{2})[-\/](\d{1,2})[-\/](\d{1,2})` at the current position. -/
def matchV1At : List Char → Option ((Nat × Nat × Nat) × Option Char × List Char)
  | '2' :: '0' :: a :: b :: rest =>
    if a.isDigit && b.isDigit then
      match rest with
      | s1 :: r1 =>
        if isDashSlash s1 then
          firstSome (take12 r1) fun g =>
            match g with
            | (mo, _, r2) =>
              match r2 with
              | s2 :: r3 =>
                if isDashSlash s2 then
                  firstSome (take12 r3) fun g2 =>
                    match g2 with
                    | (d, lc, r4) => some ((2000 + 10 * dv a + dv b, mo, d), some lc, r4)
                else none
              | [] => none
        else none
      | [] => none
    else none
  | _ => none

/-- `\b(\d{1,2})[-\/](\d{1,2})\b` at the current position (`prev` is the
character before the position). -/
def matchV2At (prev : Option Char) (cs : List Char) :
    Option ((Nat × Nat) × Option Char × List Char) :=
  if boundaryBefore prev then
    firstSome (take12 cs) fun g =>
      match g with
      | (mo, _, r1) =>
        match r1 with
        | s :: r2 =>
          if isDashSlash s then
            firstSome (take12 r2) fun g2 =>
              match g2 with
              | (d, lc, r3) =>
                if boundaryAfter r3 then some ((mo, d), some lc, r3) else none
          else none
        | [] => none
  else none

/-- `(\d{1,2})月(\d{1,2})[号日]` at the current position. -/
def matchV3At (cs : List Char) : Option ((Nat × Nat) × Option Char × List Char) :=
  firstSome (take12 cs) fun g =>
    match g with
    | (mo, _, r1) =>
      match r1 with
      | '月' :: r2 =>
        firstSome (take12 r2) fun g2 =>
          match g2 with
          | (d, _, r3) =>
            match r3 with
            | c :: r4 => if c = '号' || c = '日' then some ((mo, d), some c, r4) else none
            | [] => none
      | _ => none

/-- `(\d{4})年(\d{1,2})月(\d{1,2})日?` at the current position. -/
def matchV4At (cs : List Char) : Option ((Nat × Nat × Nat) × Option Char × List Char) :=
  match takeD4 cs with
  | none => none
  | some (y, r0) =>
    match r0 with
    | '年' :: r1 =>
      firstSome (take12 r1) fun g =>
        match g with
        | (mo, _, r2) =>
          match r2 with
          | '月' :: r3 =>
            firstSome (take12 r3) fun g2 =>
              match g2 with
              | (d, lc, r4) =>
                match r4 with
                | '日' :: r5 => some ((y, mo, d), some '日', r5)
                | _ => some ((y, mo, d), some lc, r4)
          | _ => none
    | _ => none

/-- `re.finditer`: all non-overlapping matches left to right, continuing at
each match end.  `fuel` bounds the recursion; every embedded pattern consumes
at least one character, so `length + 1` fuel is exact. -/
def finditAux (f : Option Char → List Char → Option (γ × Option Char × List Char)) :
    Nat → Option Char → List Char → List γ
  | 0, _, _ => []
  | _ + 1, _, [] => []
  | fuel + 1, prev, c :: cs =>
    match f prev (c :: cs) with
    | some (g, lc, rest) => g :: finditAux f fuel lc rest
    | none => finditAux f fuel (some c) cs

def finditer (f : Option Char → List Char → Option (γ × Option Char × List Char))
    (s : String) : List γ :=
  finditAux f (s.data.length + 1) none s.data

/-- `re.search`: leftmost match (none of the embedded patterns matches an
empty string, so scanning stops at the end). -/
def searchAux (f : Option Char → List Char → Option γ) : Option Char → List Char → Option γ
  | _, [] => none
  | prev, c :: cs =>
    match f prev (c :: cs) with
    | some g => some g
    | none => searchAux f (some c) cs

def searchIn (f : Option Char → List Char → Option γ) (s : String) : Option γ :=
  searchAux f none s.data

/-! ### plan_validator._extract_dates_from_text -/

/-- `f"{y}-{mo:02d}-{d:02d}"`. -/
def fmtDate (y mo d : Nat) : String :=
  Nat.repr y ++ "-" ++ pad2 mo ++ "-" ++ pad2 d

/-- `1 <= mo <= 12 and 1 <= d <= 31`. -/
def validMD (mo d : Nat) : Bool :=
  1 ≤ mo && mo ≤ 12 && 1 ≤ d && d ≤ 31

/-- `list(dict.fromkeys(found))`: deduplicate keeping first occurrences. -/
def dedupAux (seen : List String) : List String → List String
  | [] => []
  | x :: t => if seen.contains x then dedupAux seen t else x :: dedupAux (x :: seen) t

/-- `_extract_dates_from_text`: explicit calendar dates found in the user
text, as `YYYY-MM-DD` strings, in match order, deduplicated. -/
def extractDatesFromText (text : String) : List String :=
  let g1 := (finditer (fun _ cs => matchV1At cs) text).filterMap fun g =>
    match g with
    | (y, mo, d) => if validMD mo d then some (fmtDate y mo d) else none
  let g2 := (finditer matchV2At text).filterMap fun g =>
    match g with
    | (mo, d) => if validMD mo d then some (fmtDate 2017 mo d) else none
  let g3 := (finditer (fun _ cs => matchV3At cs) text).filterMap fun g =>
    match g with
    | (mo, d) => if validMD mo d then some (fmtDate 2017 mo d) else none
  let g4 := (finditer (fun _ cs => matchV4At cs) text).filterMap fun g =>
    match g with
    | (y, mo, d) => if validMD mo d then some (fmtDate y mo d) else none
  dedupAux [] (g1 ++ g2 ++ g3 ++ g4)

/-! ### plan_validator: data model and validate_plan -/

/-- Tool whitelist (`TOOL_WHITELIST`). -/
def TOOL_WHITELIST : List String :=
  ["overview_daily", "overview_day", "funnel_daily",
   "user_retention", "user_activity",
   "category_contrib_buyers", "new_vs_old_user_conversion"]

/-- `TOOLS_NEED_DAYS`. -/
def TOOLS_NEED_DAYS : List String :=
  ["overview_daily", "funnel_daily", "user_retention", "user_activity"]

/-- `TOOLS_NEED_DT`. -/
def TOOLS_NEED_DT : List String :=
  ["overview_day", "category_contrib_buyers", "new_vs_old_user_conversion"]

/-- `DEFAULT_DAYS`. -/
def DEFAULT_DAYS : Int := 9

/-- `sorted(TOOL_WHITELIST)` (Python sorts these fixed strings in this
order). -/
def sortedWhitelist : List String :=
  ["category_contrib_buyers", "funnel_daily", "new_vs_old_user_conversion",
   "overview_daily", "overview_day", "user_activity", "user_retention"]

/-- One validator-level call `{tool, params}`.  A missing or `None` tool key
is modelled by the empty string (both are falsy and are treated identically
by the source); a missing params key behaves like the empty dict. -/
structure VCall where
  tool : String
  params : Params
  deriving DecidableEq, Repr

/-- The `assumptions` field of a plan dict: the source tolerates a dict, a
list, or an absent key. -/
inductive AVal where
  | aDict (entries : Params)
  | aList (items : List String)
  | aNone
  deriving DecidableEq, Repr

open AVal

/-- Python truthiness of an `assumptions` field. -/
def truthyA : AVal → Bool
  | aDict es => es ≠ []
  | aList xs => xs ≠ []
  | aNone => false

/-- Validator-level plan dict.  `calls` is assumed to be a list of dicts (the
non-list / non-dict degenerate inputs only produce the corresponding type
errors in the source and are outside the typed model); `not_supported` is an
optional dict, truthy iff present and non-empty. -/
structure VPlan where
  calls : List VCall
  assumptions : AVal
  not_supported : Option Params
  deriving DecidableEq, Repr

/-- Truthiness of `plan.get("not_supported")`. -/
def truthyNS : Option Params → Bool
  | none => false
  | some l => l ≠ []

/-- `_plan_has_time_params`: some call has a truthy `dt`/`days`/`start`/`end`
parameter. -/
def planHasTimeParams (calls : List VCall) : Bool :=
  calls.any fun c =>
    ["dt", "days", "start", "end"].any fun k =>
      match paramGet c.params k with
      | some v => truthyV v
      | none => false

/-- `_plan_covers_date`: some call covers the date via `dt` or a
`[start, end]` string window.  (A non-string `start`/`end` would raise a
`TypeError` in the source; such untyped windows never cover.) -/
def planCoversDate (calls : List VCall) (dateStr : String) : Bool :=
  calls.any fun c =>
    (match paramGet c.params "dt" with
     | some v => truthyV v && (valueStr v).take 10 = dateStr.take 10
     | none => false) ||
    (match paramGet c.params "start", paramGet c.params "end" with
     | some s, some e =>
       truthyV s && truthyV e &&
       (match s, e with
        | vStr ss, vStr es => pyStrLe ss (dateStr.take 10) && pyStrLe (dateStr.take 10) es
        | _, _ => false)
     | _, _ => false)

/-- The injection condition of `_inject_default_days` for one call:
day-count-bearing tool whose `days` is absent or `None`. -/
def needsDaysInject (c : VCall) : Bool :=
  TOOLS_NEED_DAYS.contains c.tool &&
    (match paramGet c.params "days" with
     | none => true
     | some vNone => true
     | some _ => false)

/-- The per-call effect of `_inject_default_days`. -/
def injectCall (c : VCall) : VCall :=
  if needsDaysInject c then { c with params := paramSet c.params "days" (vInt 9) } else c

/-- Record `assumptions["days"] = 9` after `setdefault("assumptions", {})`
(only when the field is a dict, or absent, and has no `days` key yet). -/
def recordDaysAssumption : AVal → AVal
  | aNone => aDict [("days", vInt 9)]
  | aDict es => if es.any (fun kv => kv.1 = "days") then aDict es else aDict (es ++ [("days", vInt 9)])
  | aList xs => aList xs

/-- `_inject_default_days`: when the plan has calls but no time parameter at
all, give every day-count-bearing call `days = 9` and record the
assumption. -/
def injectDefaultDays (p : VPlan) : VPlan :=
  if p.calls = [] then p
  else if planHasTimeParams p.calls then p
  else
    let newCalls := p.calls.map injectCall
    if p.calls.any needsDaysInject then
      { p with calls := newCalls, assumptions := recordDaysAssumption p.assumptions }
    else
      { p with calls := newCalls }

/-- Whitelist errors of step 1, in call order (`i` is the running index). -/
def wlErrorsAux (i : Nat) : List VCall → List String
  | [] => []
  | c :: t =>
    (if c.tool = "" then ["calls[" ++ Nat.repr i ++ "] 缺少 tool"]
     else if TOOL_WHITELIST.contains c.tool then []
     else ["calls[" ++ Nat.repr i ++ "] tool \x27" ++ c.tool ++ "\x27 不在白名单，可用: "
           ++ pyReprStrList sortedWhitelist])
    ++ wlErrorsAux (i + 1) t

/-- The step-2 error text for one uncovered date. -/
def uncoveredDateErr (d : String) : String :=
  "用户提到日期 " ++ d ++ "，但 Plan 中无 dt 或 start/end 覆盖该日"

/-- `validate_plan`: returns the repaired plan and the error list.  The
Python function operates on a deep copy, so it is a pure function of its
input, which is what this definition expresses. -/
def validatePlan (p : VPlan) (userText : String) : VPlan × List String :=
  let wlErrs := wlErrorsAux 0 p.calls
  let covErrs :=
    if !truthyNS p.not_supported && p.calls ≠ [] then
      (extractDatesFromText userText).foldl
        (fun acc d => if planCoversDate p.calls d then acc else acc ++ [uncoveredDateErr d]) []
    else []
  (injectDefaultDays p, wlErrs ++ covErrs)

/-! ### mapper: _fallback_normalize -/

/-- Reference date (`REFERENCE_DATE`). -/
def REFERENCE_DATE : String := "2017-12-04"

/-- `[号日]?`, greedy-first candidates. -/
def optRiHao (cs : List Char) : List (List Char) :=
  match cs with
  | c :: rest => if c = '号' || c = '日' then [rest, cs] else [cs]
  | [] => [[]]

/-- `(\d{1,2})月(\d{1,2})[号日]?\s*到\s*(\d{1,2})月(\d{1,2})[号日]?` at the
current position (trailing optional class captures nothing). -/
def matchR1At (cs : List Char) : Option (Nat × Nat × Nat × Nat) :=
  firstSome (take12 cs) fun g =>
    match g with
    | (m1, _, r1) =>
      match r1 with
      | '月' :: r2 =>
        firstSome (take12 r2) fun g2 =>
          match g2 with
          | (d1, _, r3) =>
            firstSome (optRiHao r3) fun r4 =>
              match dropSpaces r4 with
              | '到' :: r5 =>
                firstSome (take12 (dropSpaces r5)) fun g3 =>
                  match g3 with
                  | (m2, _, r6) =>
                    match r6 with
                    | '月' :: r7 =>
                      firstSome (take12 r7) fun g4 =>
                        match g4 with
                        | (d2, _, _) => some (m1, d1, m2, d2)
                    | _ => none
              | _ => none
      | _ => none

/-- `(\d{1,2})月(\d{1,2})[号日]?\s*到\s*(\d{1,2})[号日]?` at the current
position. -/
def matchR2At (cs : List Char) : Option (Nat × Nat × Nat) :=
  firstSome (take12 cs) fun g =>
    match g with
    | (mo, _, r1) =>
      match r1 with
      | '月' :: r2 =>
        firstSome (take12 r2) fun g2 =>
          match g2 with
          | (d1, _, r3) =>
            firstSome (optRiHao r3) fun r4 =>
              match dropSpaces r4 with
              | '到' :: r5 =>
                firstSome (take12 (dropSpaces r5)) fun g3 =>
                  match g3 with
                  | (d2, _, _) => some (mo, d1, d2)
              | _ => none
      | _ => none

/-- `(20\d{2})[-\/](\d{1,2})[-\/](\d{1,2})\b` at the current position. -/
def matchIsoAt (cs : List Char) : Option (Nat × Nat × Nat) :=
  match cs with
  | '2' :: '0' :: a :: b :: rest =>
    if a.isDigit && b.isDigit then
      match rest with
      | s1 :: r1 =>
        if isDashSlash s1 then
          firstSome (take12 r1) fun g =>
            match g with
            | (mo, _, r2) =>
              match r2 with
              | s2 :: r3 =>
                if isDashSlash s2 then
                  firstSome (take12 r3) fun g2 =>
                    match g2 with
                    | (d, _, r4) =>
                      if boundaryAfter r4 then some (2000 + 10 * dv a + dv b, mo, d) else none
                else none
              | [] => none
        else none
      | [] => none
    else none
  | _ => none

def isDotSlashDash (c : Char) : Bool := c = '.' || c = '/' || c = '-'

/-- `(?![.\d])`. -/
def negLookDotDigit : List Char → Bool
  | [] => true
  | c :: _ => !(c = '.' || c.isDigit)

/-- `(\d{1,2})[.\/\-](\d{1,2})(?![.\d])` at the current position. -/
def matchDottedAt (cs : List Char) : Option (Nat × Nat) :=
  firstSome (take12 cs) fun g =>
    match g with
    | (mo, _, r1) =>
      match r1 with
      | s :: r2 =>
        if isDotSlashDash s then
          firstSome (take12 r2) fun g2 =>
            match g2 with
            | (d, _, r3) => if negLookDotDigit r3 then some (mo, d) else none
        else none
      | [] => none

/-- `(\d{1,2})月(\d{1,2})[号日]?` at the current position. -/
def matchCnAt (cs : List Char) : Option (Nat × Nat) :=
  firstSome (take12 cs) fun g =>
    match g with
    | (mo, _, r1) =>
      match r1 with
      | '月' :: r2 =>
        firstSome (take12 r2) fun g2 =>
          match g2 with
          | (d, _, _) => some (mo, d)
      | _ => none

/-- One alternative `kw\s*(\d+)\s*天` of the day-count pattern. -/
def matchDaysKw (kw : List Char) (cs : List Char) : Option Nat :=
  if isPrefixOfL kw cs then
    match takeDigits (dropSpaces (cs.drop kw.length)) with
    | some (n, r2) =>
      match dropSpaces r2 with
      | '天' :: _ => some n
      | _ => none
    | none => none
  else none

/-- `最近\s*(\d+)\s*天|近\s*(\d+)\s*天|过去\s*(\d+)\s*天|前\s*(\d+)\s*天` at
the current position (alternatives in source order). -/
def matchDaysAt (cs : List Char) : Option Nat :=
  match matchDaysKw "最近".data cs with
  | some n => some n
  | none =>
    match matchDaysKw "近".data cs with
    | some n => some n
    | none =>
      match matchDaysKw "过去".data cs with
      | some n => some n
      | none => matchDaysKw "前".data cs

/-- `1 <= m1 <= 12 and 1 <= d1 <= 31 and 1 <= m2 <= 12 and 1 <= d2 <= 31`. -/
def validMD4 (m1 d1 m2 d2 : Nat) : Bool :=
  validMD m1 d1 && validMD m2 d2

/-- `f"2017-{mo:02d}-{d:02d}"`. -/
def cnDate (mo d : Nat) : String :=
  "2017-" ++ pad2 mo ++ "-" ++ pad2 d

/-- The date-range block of `_fallback_normalize` (source lines 139-156):
the ordered `(prev_dt, dt)` pair, when a two-endpoint range phrase is
detected with valid month/day numbers at the leftmost match. -/
def rangeDetect (q : String) : Option (String × String) :=
  match searchIn (fun _ cs => matchR1At cs) q with
  | some (m1, d1, m2, d2) =>
    if validMD4 m1 d1 m2 d2 then
      if pyStrLe (cnDate m1 d1) (cnDate m2 d2) then some (cnDate m1 d1, cnDate m2 d2)
      else some (cnDate m2 d2, cnDate m1 d1)
    else none
  | none =>
    match searchIn (fun _ cs => matchR2At cs) q with
    | some (mo, d1, d2) =>
      if validMD mo d1 && validMD mo d2 then
        if d1 ≤ d2 then some (cnDate mo d1, cnDate mo d2)
        else some (cnDate mo d2, cnDate mo d1)
      else none
    | none => none

/-- Result record of `_fallback_normalize`. -/
structure NormOut where
  dt : Option String
  days : Option Int
  prev_dt : Option String
  assumptions : List String
  deriving DecidableEq, Repr

/-- `_fallback_normalize`: regex extraction of `dt`/`days`/`prev_dt` from
the question text. -/
def fallbackNormalize (question : String) : NormOut :=
  let q := pyStrip question
  let rng := rangeDetect q
  let dt0 : Option String := rng.map (fun pr => pr.2)
  let prev0 : Option String := rng.map (fun pr => pr.1)
  let a0 : List String := if rng.isSome then ["日期无年份，默认 2017 年"] else []
  let (dt1, a1) :=
    match dt0 with
    | some d => (some d, a0)
    | none =>
      match searchIn (fun _ cs => matchIsoAt cs) q with
      | some (y, mo, d) => (some (Nat.repr y ++ "-" ++ pad2 mo ++ "-" ++ pad2 d), a0)
      | none =>
        match searchIn (fun _ cs => matchDottedAt cs) q with
        | some (mo, d) =>
          if validMD mo d then (some (cnDate mo d), a0 ++ ["日期无年份，默认 2017 年"])
          else (none, a0)
        | none =>
          match searchIn (fun _ cs => matchCnAt cs) q with
          | some (mo, d) =>
            if validMD mo d then (some (cnDate mo d), a0 ++ ["日期无年份，默认 2017 年"])
            else (none, a0)
          | none => (none, a0)
  let dt2 :=
    match dt1 with
    | some d => some d
    | none =>
      if strContains q "昨天" then some "2017-12-03"
      else if strContains q "前天" then some "2017-12-02"
      else if anyContains q ["今天", "当天", "当日", "那天"] then some REFERENCE_DATE
      else none
  let days : Option Int :=
    match searchIn (fun _ cs => matchDaysAt cs) q with
    | some n => some (min (n : Int) 90)
    | none =>
      if anyContains q ["最近一周", "最近1周", "一周", "近一周", "这周", "本周"] then some 7
      else if anyContains q ["两周", "14天"] then some 14
      else if anyContains q ["半个月"] then some 15
      else if anyContains q ["一个月", "最近一月", "近一月"] then some 30
      else none
  { dt := dt2, days := days, prev_dt := prev0, assumptions := a1 }

/-! ### mapper: Slots, SessionContext and _apply_session_ctx -/

/-- Canonical slots record produced by the mapper.  A missing dict key is
`none`; `intent` is always a string in the source (empty string models a
falsy or absent intent). -/
structure Slots where
  intent : String
  dt : Option String
  days : Option Int
  prev_dt : Option String
  metric_focus : Option String
  assumptions : List String
  not_supported : Option Params
  deriving DecidableEq, Repr

/-- Session context record. -/
structure SessionCtx where
  last_dt : Option String
  prev_dt : Option String
  last_days : Option Int
  last_metric_focus : Option String
  last_answer_summary : Option String
  deriving DecidableEq, Repr

/-- Truthiness of an optional string. -/
def truthyS : Option String → Bool
  | some s => s ≠ ""
  | none => false

/-- `INTENTS_NEED_DAYS`. -/
def INTENTS_NEED_DAYS : List String :=
  ["overview_daily", "funnel_daily", "user_retention", "user_activity", "diagnose_generic"]

/-- `DEFAULT_METRIC_FOCUS`. -/
def DEFAULT_METRIC_FOCUS : String := "uv_to_buyer"

/-- `_question_specifies_metric`. -/
def questionSpecifiesMetric (question : String) : Bool :=
  anyContains (pyStrip question) ["买家", "uv", "UV", "转化率", "转化", "加购"]

/-- `_apply_session_ctx`: fill missing `dt`/`prev_dt`/`days`/`metric_focus`
from the session context, recording assumptions.  The Python function
mutates `result` in place; this is its input/output behaviour. -/
def applySessionCtx (result : Slots) (question : String) (ctx : SessionCtx) : Slots :=
  let (dt1, a1) :=
    match result.dt with
    | some d => (some d, result.assumptions)
    | none =>
      match ctx.last_dt with
      | some s =>
        if s ≠ "" then (some s, result.assumptions ++ ["未指定日期，沿用上一轮 dt=" ++ s])
        else (none, result.assumptions)
      | none => (none, result.assumptions)
  let prev1 :=
    match result.prev_dt with
    | some p => some p
    | none => if truthyS ctx.prev_dt then ctx.prev_dt else none
  let (days2, a2) :=
    if result.days = none ∧ INTENTS_NEED_DAYS.contains result.intent then
      if truthyS prev1 then (none, a1)
      else
        match ctx.last_days with
        | some d =>
          let c : Int := max 1 (min 90 d)
          (some c, a1 ++ ["未指定 days，沿用上一轮 days=" ++ toString c])
        | none =>
          if result.intent = "diagnose_generic" then
            (some 9, a1 ++ ["days 默认 9 供 funnel 诊断"])
          else (none, a1)
    else (result.days, a1)
  let (mf3, a3) :=
    if result.intent = "diagnose_generic" ∧ ¬ questionSpecifiesMetric question then
      let prevMF := ctx.last_metric_focus
      let summary := pyLower ((ctx.last_answer_summary).getD "")
      let prevMF2 :=
        if strContains question "上升" || strContains question "下降" then
          if strContains summary "uv" || strContains summary "访客" then
            (if truthyS prevMF then prevMF else some "uv")
          else if strContains summary "买家" then
            (if truthyS prevMF then prevMF else some "buyers")
          else prevMF
        else prevMF
      let focus := if truthyS prevMF2 then prevMF2.getD "" else DEFAULT_METRIC_FOCUS
      if truthyS prevMF2 then
        (some focus, a2 ++ ["未指定诊断对象，沿用 metric_focus=" ++ focus])
      else
        (some focus, a2 ++ ["未指定诊断对象，默认 metric_focus=" ++ focus])
    else (result.metric_focus, a2)
  { result with
    dt := dt1, prev_dt := prev1, days := days2, metric_focus := mf3, assumptions := a3 }

/-! ### planner: range words, plots, rule-based synthesis -/

/-- One position of `RANGE_WORDS_PAT`
(`最近|近\s*\d*\s*天|近几天|趋势|过去|这几天|这周|本周|上周|近[期时日]`). -/
def matchRangeWordAt (cs : List Char) : Bool :=
  isPrefixOfL "最近".data cs ||
  (match cs with
   | '近' :: r =>
     (match dropSpaces ((dropSpaces r).dropWhile Char.isDigit) with
      | '天' :: _ => true
      | _ => false)
   | _ => false) ||
  isPrefixOfL "近几天".data cs ||
  isPrefixOfL "趋势".data cs ||
  isPrefixOfL "过去".data cs ||
  isPrefixOfL "这几天".data cs ||
  isPrefixOfL "这周".data cs ||
  isPrefixOfL "本周".data cs ||
  isPrefixOfL "上周".data cs ||
  (match cs with
   | '近' :: c :: _ => c = '期' || c = '时' || c = '日'
   | _ => false)

/-- Existence scan for a Bool pattern. -/
def scanAny (f : List Char → Bool) : List Char → Bool
  | [] => false
  | c :: cs => f (c :: cs) || scanAny f cs

/-- `_has_range_words`. -/
def hasRangeWords (question : String) : Bool :=
  scanAny matchRangeWordAt (pyStrip question).data

/-- `DAYS_DEFAULT_OVERVIEW` / `DAYS_DEFAULT_RETENTION`. -/
def DAYS_DEFAULT_OVERVIEW : Int := 9
def DAYS_DEFAULT_RETENTION : Int := 7

/-- `_clamp_days`. -/
def clampDays (d : Int) : Int := max 1 (min 90 d)

/-- A planner-level call.  The source stores the identical tool key under
both `tool_key` and `tool`; the single `tool` field models both. -/
structure PCall where
  tool : String
  params : Params
  deriving DecidableEq, Repr

/-- A plot spec `{plot_type, from_call, config}` (`from_call` is the string
form of the call index, as in the source). -/
structure Plot where
  plot_type : String
  from_call : String
  config : Params
  deriving DecidableEq, Repr

/-- A planner-level plan. -/
structure PPlan where
  calls : List PCall
  plots : List Plot
  assumptions : List String
  not_supported : Option Params
  deriving DecidableEq, Repr

/-- Plots emitted for one call of tool `tk` at index `i`
(`_add_plots_from_calls` loop body). -/
def plotFor (wantPlot : Bool) (i : Nat) (tk : String) : List Plot :=
  if tk = "overview_day" then
    if wantPlot then
      [⟨"trend", Nat.repr i,
        [("x", vStr "dt"), ("ys", vStrList ["pv", "uv", "buyers"]), ("title", vStr "单日指标")]⟩]
    else []
  else if tk = "overview_daily" then
    [⟨"trend", Nat.repr i,
      [("x", vStr "dt"), ("ys", vStrList ["pv", "uv", "buyers"]), ("title", vStr "Overview trend")]⟩]
  else if tk = "funnel_daily" then
    [⟨"trend", Nat.repr i,
      [("x", vStr "dt"), ("ys", vStrList ["uv_to_buyer", "uv_to_cart", "cart_to_buyer"]),
       ("title", vStr "Funnel trend")]⟩]
  else if tk = "category_contrib_buyers" then
    [⟨"topn_bar", Nat.repr i,
      [("x", vStr "category_id"), ("y", vStr "delta"), ("n", vInt 10),
       ("title", vStr "Category contribution TopN")]⟩]
  else if tk = "user_retention" then
    [⟨"trend", Nat.repr i,
      [("x", vStr "dt"), ("ys", vStrList ["retention_1d"]), ("title", vStr "次日留存率趋势")]⟩]
  else if tk = "user_activity" then
    [⟨"trend", Nat.repr i,
      [("x", vStr "dt"), ("ys", vStrList ["dau"]), ("title", vStr "DAU 趋势")]⟩]
  else []

/-- Index-threaded loop of `_add_plots_from_calls`. -/
def addPlotsAux (wantPlot : Bool) (i : Nat) : List PCall → List Plot
  | [] => []
  | c :: t => plotFor wantPlot i c.tool ++ addPlotsAux wantPlot (i + 1) t

/-- `_add_plots_from_calls`. -/
def addPlotsFromCalls (calls : List PCall) (q : String) : List Plot :=
  let ql := pyLower (pyStrip q)
  addPlotsAux (strContains ql "画图" || strContains ql "趋势图") 0 calls

/-- `(slots.get("intent") or "unknown").strip()`. -/
def slotsIntent (s : Slots) : String :=
  pyStrip (if s.intent = "" then "unknown" else s.intent)

/-- `_plan_from_slots_rule`.  `defaultDt` abstracts `_get_default_dt_safe()`
(a query to the dataset for its latest date, with fallback "2017-12-03");
passing it as an argument keeps the embedding faithful without modelling the
database. -/
def planFromSlotsRule (defaultDt : String) (question : String) (slots : Slots) : PPlan :=
  let intent := slotsIntent slots
  let dt := slots.dt
  let days := slots.days
  let a0 := slots.assumptions
  match slots.not_supported with
  | some ns => ⟨[], [], a0, some ns⟩
  | none =>
    let dtT := truthyS dt
    let dtPri := dtT && !hasRangeWords question
    if dtPri && intent = "funnel_daily" then
      let calls := [PCall.mk "funnel_daily" [("days", vInt 1), ("end_dt", vStr (dt.getD ""))]]
      ⟨calls, addPlotsFromCalls calls question, a0 ++ ["使用 dt 优先"], none⟩
    else if dtPri && TOOLS_NEED_DAYS.contains intent then
      let calls := [PCall.mk "overview_day" [("dt", vStr (dt.getD ""))]]
      ⟨calls, addPlotsFromCalls calls question, a0 ++ ["使用 dt 优先"], none⟩
    else
      let a1 := if dtPri then a0 ++ ["使用 dt 优先"] else a0
      if intent = "diagnose_generic" then
        let target := if dtT then dt.getD "" else defaultDt
        let prev := slots.prev_dt
        let a2 :=
          if !dtT then a1 ++ ["dt 缺失，使用数据最新日"]
          else if a1.contains "使用 dt 优先" then a1
          else a1 ++ ["使用 dt 优先"]
        let q := pyStrip question
        let branchTwo := truthyS prev && (prev.getD "" ≠ target)
        let calls3 :=
          if branchTwo then
            [PCall.mk "overview_day" [("dt", vStr (prev.getD ""))],
             PCall.mk "overview_day" [("dt", vStr target)],
             PCall.mk "funnel_daily" [("days", vInt 2), ("end_dt", vStr target)]]
          else
            let d := match days with | some n => clampDays n | none => DAYS_DEFAULT_OVERVIEW
            [PCall.mk "overview_day" [("dt", vStr target)],
             PCall.mk "funnel_daily" [("days", vInt d)]]
        let a3 :=
          if branchTwo then
            a2 ++ ["两日对比分析：" ++ prev.getD "" ++ " vs " ++ target]
          else
            match days with
            | none => a2 ++ ["days 缺失，默认 9"]
            | some n => if n ≠ clampDays n then a2 ++ ["days 已限制到 1-90"] else a2
        let calls4 :=
          if target ≠ "" && anyContains q ["类目", "哪个类目"] && calls3.length < 4 then
            calls3 ++ [PCall.mk "category_contrib_buyers" [("dt", vStr target)]]
          else calls3
        ⟨calls4, addPlotsFromCalls calls4 question, a3, none⟩
      else if intent = "unknown" then ⟨[], [], a1, none⟩
      else if TOOLS_NEED_DT.contains intent then
        let target := if dtT then dt.getD "" else defaultDt
        let a2 := if !dtT then a1 ++ ["dt 缺失，使用数据最新日"] else a1
        let calls := [PCall.mk intent [("dt", vStr target)]]
        ⟨calls, addPlotsFromCalls calls question, a2, none⟩
      else if TOOLS_NEED_DAYS.contains intent then
        let (d0, a2) :=
          match days with
          | none =>
            let dd : Int :=
              if intent = "user_retention" || intent = "user_activity" then DAYS_DEFAULT_RETENTION
              else DAYS_DEFAULT_OVERVIEW
            (dd, a1 ++ ["days 缺失，默认 " ++ toString dd])
          | some n => (n, a1)
        let d := clampDays d0
        let a3 := if d ≠ d0 then a2 ++ ["days 已限制到 1-90"] else a2
        let calls := [PCall.mk intent [("days", vInt d)]]
        ⟨calls, addPlotsFromCalls calls question, a3, none⟩
      else ⟨[], [], a1, none⟩

/-! ### planner: _validate_and_sanitize_llm_plan -/

/-- A raw external (LLM) call: `tool` / `tool_key` as extracted by
`c.get(...) or ...` (empty string models a falsy or absent key). -/
structure LCall where
  tool : String
  tool_key : String
  params : Params
  deriving DecidableEq, Repr

/-- A raw external plan.  `calls = none` models an absent or non-list
`calls` field; the degenerate non-dict plan inputs are outside the typed
model (the source returns `None` for them as well). -/
structure LPlan where
  calls : Option (List LCall)
  assumptions : AVal
  not_supported : Option Params
  deriving DecidableEq, Repr

/-- `_normalize_llm_call`. -/
def normLLMCall (c : LCall) : PCall :=
  ⟨if c.tool ≠ "" then c.tool else c.tool_key, c.params⟩

/-- The whitelist + `validate_plan` stage of `_validate_and_sanitize_llm_plan`
(source lines 112-140): the unified calls after validation together with the
validated plan, or `none` when the plan must be rejected. -/
def sanitizedCalls (question : String) (llm : LPlan) : Option (List PCall × VPlan) :=
  match llm.calls with
  | none => none
  | some raw =>
    let calls := raw.map normLLMCall
    if calls.all (fun c => TOOL_WHITELIST.contains c.tool) then
      let planForVal : VPlan :=
        ⟨calls.map (fun c => ⟨c.tool, c.params⟩),
         (if truthyA llm.assumptions then llm.assumptions else aDict []), none⟩
      let vres := validatePlan planForVal question
      if vres.2 = [] then
        some (vres.1.calls.map (fun c => (⟨c.tool, c.params⟩ : PCall)), vres.1)
      else none
    else none

/-- Insertion into a key-sorted parameter list. -/
def insertByKey (kv : String × Value) : Params → Params
  | [] => [kv]
  | b :: t => if pyStrLe kv.1 b.1 then kv :: b :: t else b :: insertByKey kv t

/-- `tuple(sorted(params.items()))` (dict keys are unique, so sorting by key
matches the Python tuple order). -/
def sortParams (ps : Params) : Params := ps.foldr insertByKey []

/-- Comparison key of one call in the diagnose-template check. -/
def gotKey (c : PCall) : String × Params := (c.tool, sortParams c.params)

/-- The canonical three-call diagnose template (`expected` in the source). -/
def expectedDiag (prev dt : String) : List PCall :=
  [⟨"overview_day", [("dt", vStr prev)]⟩,
   ⟨"overview_day", [("dt", vStr dt)]⟩,
   ⟨"funnel_daily", [("days", vInt 2), ("end_dt", vStr dt)]⟩]

/-- The diagnose two-date safety override (source lines 147-159). -/
def diagnoseOverride (intent : String) (prev dt : Option String) (fc : List PCall) : List PCall :=
  if intent = "diagnose_generic" && truthyS prev && truthyS dt
      && (prev.getD "" ≠ dt.getD "") then
    let p := prev.getD ""
    let d := dt.getD ""
    let got := (fc.take 3).map gotKey
    let need := (expectedDiag p d).map gotKey
    if got ≠ need then
      expectedDiag p d ++
        ((fc.filter (fun c => c.tool = "category_contrib_buyers")).take 1).map
          (fun c => ⟨c.tool, paramSet c.params "dt" (vStr d)⟩)
    else fc
  else fc

/-- Python `int(v)` on a parameter value (raises on non-numeric input, in
which case the source leaves the parameter unchanged). -/
def pyToInt : Value → Option Int
  | vInt n => some n
  | vStr s => pyIntOfStr s
  | _ => none

/-- The `days` 1-90 clamp of the sanitizer (source lines 161-169). -/
def clampCall (c : PCall) : PCall :=
  match paramGet c.params "days" with
  | some v =>
    if v = vNone then c
    else
      match pyToInt v with
      | some n => ⟨c.tool, paramSet c.params "days" (vInt (max 1 (min 90 n)))⟩
      | none => c
  | none => c

/-- The assumptions merge of the sanitizer (source lines 171-177). -/
def mergeAssumptions (base : List String) : AVal → List String
  | aDict es =>
    es.foldl (fun acc kv =>
      if kv.2 ≠ vNone ∧ ¬ strContains (pyReprStrList acc) (kv.1 ++ "=" ++ valueStr kv.2) then
        acc ++ [kv.1 ++ " 默认 " ++ valueStr kv.2]
      else acc) base
  | aList xs => base ++ xs
  | aNone => base

/-- `_validate_and_sanitize_llm_plan`: `none` means the caller must fall back
to the rule-based synthesizer. -/
def sanitizeLLMPlan (question : String) (slots : Slots) (llm : LPlan) : Option PPlan :=
  if truthyNS llm.not_supported then
    some ⟨[], [], slots.assumptions, llm.not_supported⟩
  else
    match sanitizedCalls question llm with
    | none => none
    | some (fc, validated) =>
      let fc2 := diagnoseOverride (slotsIntent slots) slots.prev_dt slots.dt fc
      let fc3 := fc2.map clampCall
      some ⟨fc3, addPlotsFromCalls fc3 question,
            mergeAssumptions slots.assumptions validated.assumptions, none⟩

/-! ## Shared lemmas -/

theorem paramGet_paramSet_self (ps : Params) (k : String) (v : Value) :
    paramGet (paramSet ps k v) k = some v := by
  induction ps with
  | nil => simp [paramSet, paramGet]
  | cons hd t ih =>
    obtain ⟨k₁, v₁⟩ := hd
    by_cases h : k₁ = k
    · simp [paramSet, paramGet, h]
    · simp [paramSet, paramGet, h, ih]

theorem paramGet_paramSet_ne (ps : Params) (k k₀ : String) (v : Value) (h : k₀ ≠ k) :
    paramGet (paramSet ps k v) k₀ = paramGet ps k₀ := by
  have h' : ¬ k = k₀ := fun hh => h hh.symm
  induction ps with
  | nil => simp [paramSet, paramGet, h']
  | cons hd t ih =>
    obtain ⟨k₁, v₁⟩ := hd
    by_cases hh : k₁ = k
    · subst hh
      simp [paramSet, paramGet, h']
    · by_cases hh2 : k₁ = k₀
      · subst hh2
        simp [paramSet, paramGet, hh, h]
      · simp [paramSet, paramGet, hh, hh2, ih]

/-- The coverage loop of `validate_plan` appends exactly one error per
uncovered date, in date order. -/
theorem coverage_foldl (cov : String → Bool) (err : String → String) :
    ∀ (dates : List String) (init : List String),
      dates.foldl (fun acc d => if cov d then acc else acc ++ [err d]) init
        = init ++ (dates.filter (fun d => !cov d)).map err := by
  intro dates
  induction dates with
  | nil => intro init; simp
  | cons d t ih =>
    intro init
    by_cases h : cov d
    · simp [List.foldl_cons, h, ih]
    · simp [List.foldl_cons, h, ih]

/-- A whitelisted tool key is never the empty string. -/
theorem tool_in_whitelist_ne_empty (t : String) (h : TOOL_WHITELIST.contains t = true) :
    t ≠ "" := by
  intro he
  subst he
  simp [TOOL_WHITELIST] at h

/-- Step 1 of `validate_plan` produces no errors when every call is
whitelisted. -/
theorem wlErrorsAux_nil (calls : List VCall)
    (h : ∀ c ∈ calls, TOOL_WHITELIST.contains c.tool = true) :
    ∀ i, wlErrorsAux i calls = [] := by
  induction calls with
  | nil => intro i; rfl
  | cons c t ih =>
    intro i
    have hc := h c (by simp)
    have hne := tool_in_whitelist_ne_empty c.tool hc
    simp only [wlErrorsAux, hne, if_false, hc, if_true, List.nil_append]
    exact ih (fun c hc => h c (by simp [hc])) (i + 1)

/-- `injectCall` never changes the tool key. -/
theorem injectCall_tool (c : VCall) : (injectCall c).tool = c.tool := by
  unfold injectCall
  split <;> rfl

/-- `injectCall` preserves every parameter binding that is not a `None`
`days`. -/
theorem injectCall_preserves (c : VCall) (k : String) (v : Value)
    (hv : v ≠ Value.vNone) (h : paramGet c.params k = some v) :
    paramGet (injectCall c).params k = some v := by
  unfold injectCall
  split
  · next hinj =>
    by_cases hk : k = "days"
    · subst hk
      unfold needsDaysInject at hinj
      rcases Bool.and_eq_true_iff.mp hinj with ⟨_, hd⟩
      rw [h] at hd
      cases v <;> simp_all
    · simpa [paramGet_paramSet_ne c.params "days" k (Value.vInt 9) hk] using h
  · exact h

/-- When the plan has calls but no time parameter, the repaired calls are
exactly the per-call injections. -/
theorem injectDefaultDays_calls_of (p : VPlan) (hne : p.calls ≠ [])
    (hnt : planHasTimeParams p.calls = false) :
    (injectDefaultDays p).calls = p.calls.map injectCall := by
  unfold injectDefaultDays
  rw [if_neg hne, hnt]
  simp only [Bool.false_eq_true, if_false]
  split <;> rfl

/-- Calls of the repaired plan: either untouched, or the per-call `days := 9`
injection when the plan carried no time parameter. -/
theorem injectDefaultDays_calls (p : VPlan) :
    (injectDefaultDays p).calls = p.calls ∨
      (planHasTimeParams p.calls = false ∧ (injectDefaultDays p).calls = p.calls.map injectCall) := by
  by_cases h0 : p.calls = []
  · left
    unfold injectDefaultDays
    rw [if_pos h0]
  · by_cases h1 : planHasTimeParams p.calls
    · left
      unfold injectDefaultDays
      rw [if_neg h0, h1]
      simp
    · right
      have h1' : planHasTimeParams p.calls = false := by simpa using h1
      exact ⟨h1', injectDefaultDays_calls_of p h0 h1'⟩

/-- `injectDefaultDays` never touches `not_supported`. -/
theorem injectDefaultDays_ns (p : VPlan) :
    (injectDefaultDays p).not_supported = p.not_supported := by
  unfold injectDefaultDays
  split
  · rfl
  · split
    · rfl
    · split <;> rfl

/-! ## Claims -/

/-- Counterexample plan for C1: the only call covers `2017-12-03` via an
`end_dt` window (`funnel_daily(days=5, end_dt="2017-12-03")`), with no `dt`
and no `[start, end]` parameters. -/
def planC1 : VPlan :=
  ⟨[⟨"funnel_daily", [("days", Value.vInt 5), ("end_dt", Value.vStr "2017-12-03")]⟩],
   AVal.aNone, none⟩

/-- Claim C1, counterexample.  The question mentions the explicit date
`2017-12-03`; the plan is not `not_supported` and its single whitelisted
call has `end_dt = "2017-12-03"` with `days = 5`, so the date lies inside
the call's `end_dt` window; yet `validate_plan` reports the uncovered-date
error for exactly that date, because `_plan_covers_date` only inspects `dt`
and `[start, end]`. -/
theorem c1_counterexample :
    (∃ c ∈ planC1.calls, paramGet c.params "end_dt" = some (Value.vStr "2017-12-03")
        ∧ TOOL_WHITELIST.contains c.tool = true) ∧
    truthyNS planC1.not_supported = false ∧
    extractDatesFromText "2017-12-03的转化情况" = ["2017-12-03"] ∧
    (validatePlan planC1 "2017-12-03的转化情况").2 = [uncoveredDateErr "2017-12-03"] := by
  decide

/-- Claim C1, amended: for a plan whose calls are all whitelisted, with
`not_supported` unset and at least one call, `validate_plan` reports exactly
one uncovered-date error per explicit date of the question that is covered
by no call's `dt` and no `[start, end]` window — `end_dt` windows do not
count as coverage. -/
theorem c1_amended (p : VPlan) (q : String)
    (hwl : ∀ c ∈ p.calls, TOOL_WHITELIST.contains c.tool = true)
    (hns : truthyNS p.not_supported = false)
    (hne : p.calls ≠ []) :
    (validatePlan p q).2
      = ((extractDatesFromText q).filter (fun d => !planCoversDate p.calls d)).map
          uncoveredDateErr := by
  simp only [validatePlan]
  rw [wlErrorsAux_nil p.calls hwl 0]
  simp only [List.nil_append]
  split
  · exact coverage_foldl (fun d => planCoversDate p.calls d) uncoveredDateErr
      (extractDatesFromText q) []
  · next hcond => simp [hns, hne] at hcond

/-- Witness for C1 (amended): a two-call plan covering `2017-12-03` by `dt`
and `2017-11-01`..`2017-11-30` by a `[start, end]` window; the question
names `2017-12-03`, `11月15日` (covered by the window) and `12月9日`
(uncovered), and exactly the `12月9日` error is produced. -/
theorem c1_amended_witness :
    (validatePlan
        ⟨[⟨"overview_day", [("dt", Value.vStr "2017-12-03")]⟩,
          ⟨"overview_daily", [("start", Value.vStr "2017-11-01"), ("end", Value.vStr "2017-11-30")]⟩],
         AVal.aNone, none⟩
        "2017-12-03、11月15日和12月9日对比").2
      = [uncoveredDateErr "2017-12-09"] := by
  have h := c1_amended
    ⟨[⟨"overview_day", [("dt", Value.vStr "2017-12-03")]⟩,
      ⟨"overview_daily", [("start", Value.vStr "2017-11-01"), ("end", Value.vStr "2017-11-30")]⟩],
     AVal.aNone, none⟩
    "2017-12-03、11月15日和12月9日对比"
    (by decide) (by decide) (by decide)
  rw [h]
  decide

/-- Claim C4: the rule-based day-count extraction is supposed to clamp into
[1, 90], but `min(int(n), 90)` has no lower bound: the question `最近0天…`
is recognised and yields `days = 0`, outside [1, 90] (every other path of
the mapper clamps with `max(1, min(90, …))`, and the mapper's contract
documents `days: 1-90 或 null`). -/
theorem c4_failing_input :
    (fallbackNormalize "最近0天核心指标趋势").days = some 0 ∧
    ¬ ((1 : Int) ≤ 0 ∧ (0 : Int) ≤ 90) := by
  refine ⟨by decide, by omega⟩

/-- C5 concrete slots: the rule-based mapper output for `为什么下降了`
(diagnose, no date, `days = 9` filled by the mapper). -/
def slotsC5 : Slots :=
  ⟨"diagnose_generic", none, some 9, none, none,
   ["dt 缺失，days 默认 9 供 funnel 诊断"], none⟩

/-- C5 session context: the previous turn looked at 2017-12-03. -/
def ctxC5 : SessionCtx := ⟨some "2017-12-03", none, none, none, none⟩

/-- The slots after one session merge: complete (dt, days and metric_focus
all filled). -/
def mergedC5 : Slots := applySessionCtx slotsC5 "为什么下降了" ctxC5

/-- Claim C5: the session-context merge is *not* idempotent on complete
slots.  After one merge the record is complete (`dt`, `days`,
`metric_focus` all filled), yet a second merge with the same context and
question appends the `metric_focus` assumption again, because the
metric-focus block never checks whether the field is already present —
contradicting the function's own contract (fill *missing* fields) and the
spec's idempotence property. -/
theorem c5_failing_input :
    mergedC5.dt = some "2017-12-03" ∧
    mergedC5.days = some 9 ∧
    mergedC5.metric_focus = some "uv_to_buyer" ∧
    applySessionCtx mergedC5 "为什么下降了" ctxC5 ≠ mergedC5 ∧
    (applySessionCtx mergedC5 "为什么下降了" ctxC5).assumptions
      = mergedC5.assumptions ++ ["未指定诊断对象，默认 metric_focus=uv_to_buyer"] := by
  decide

/-- Counterexample plan for C7: one `user_retention` call with no
parameters. -/
def planC7 : VPlan := ⟨[⟨"user_retention", []⟩], AVal.aNone, none⟩

/-- Claim C7, counterexample: for a plan holding a single bare
`user_retention` call, `validate_plan` injects `days = 9` — not the claimed
retention/activity default of 7 (`DEFAULT_DAYS` is a single constant 9 used
for every day-count-bearing tool; the 7-day retention default lives in the
rule-based synthesizer, not the validator). -/
theorem c7_counterexample :
    (validatePlan planC7 "").1.calls = [⟨"user_retention", [("days", Value.vInt 9)]⟩] ∧
    (validatePlan planC7 "").1.calls ≠ [⟨"user_retention", [("days", Value.vInt 7)]⟩] := by
  decide

/-- Claim C7, amended: when no call of the plan carries any (truthy) time
parameter, `validate_plan` gives every day-count-bearing call whose `days`
is absent or `None` the fixed default `days = 9`, for the retention and
activity tools exactly as for overview and funnel, keeping every call's
tool key and position. -/
theorem c7_amended (p : VPlan) (q : String)
    (hne : p.calls ≠ [])
    (hnt : planHasTimeParams p.calls = false) :
    (validatePlan p q).1.calls.length = p.calls.length ∧
    ∀ i (hi : i < p.calls.length) (hi2 : i < (validatePlan p q).1.calls.length),
      ((validatePlan p q).1.calls.get ⟨i, hi2⟩).tool = (p.calls.get ⟨i, hi⟩).tool ∧
      (TOOLS_NEED_DAYS.contains (p.calls.get ⟨i, hi⟩).tool = true →
        (paramGet (p.calls.get ⟨i, hi⟩).params "days" = none ∨
         paramGet (p.calls.get ⟨i, hi⟩).params "days" = some Value.vNone) →
        paramGet ((validatePlan p q).1.calls.get ⟨i, hi2⟩).params "days"
          = some (Value.vInt 9)) := by
  have hcalls : (validatePlan p q).1.calls = p.calls.map injectCall := by
    show (injectDefaultDays p).calls = p.calls.map injectCall
    exact injectDefaultDays_calls_of p hne hnt
  refine ⟨by rw [hcalls, List.length_map], ?_⟩
  intro i hi hi2
  have hget : (validatePlan p q).1.calls.get ⟨i, hi2⟩
      = injectCall (p.calls.get ⟨i, hi⟩) := by
    rw [List.get_of_eq hcalls ⟨i, hi2⟩, List.get_map]
  refine ⟨by rw [hget, injectCall_tool], ?_⟩
  intro htool hdays
  rw [hget]
  have hinj : needsDaysInject (p.calls.get ⟨i, hi⟩) = true := by
    unfold needsDaysInject
    rw [htool]
    rcases hdays with h | h <;> (rw [h]; rfl)
  unfold injectCall
  rw [hinj]
  simp [paramGet_paramSet_self]

/-- Witness for C7 (amended): a two-call plan (`user_activity` and
`funnel_daily`, both bare) gets `days = 9` on both calls. -/
theorem c7_amended_witness :
    (validatePlan ⟨[⟨"user_activity", []⟩, ⟨"funnel_daily", []⟩], AVal.aNone, none⟩ "核心数据").1.calls.length = 2 ∧
    paramGet ((validatePlan ⟨[⟨"user_activity", []⟩, ⟨"funnel_daily", []⟩], AVal.aNone, none⟩ "核心数据").1.calls.get
        ⟨0, by decide⟩).params "days" = some (Value.vInt 9) := by
  have h := c7_amended ⟨[⟨"user_activity", []⟩, ⟨"funnel_daily", []⟩], AVal.aNone, none⟩ "核心数据"
    (by decide) (by decide)
  refine ⟨by rw [h.1]; rfl, ?_⟩
  have h2 := (h.2 0 (by decide) (by rw [h.1]; decide)).2 (by decide) (by decide)
  exact h2

/-- Counterexample plan for C10: one `overview_daily` call carrying an
explicit `days: None` parameter pair. -/
def planC10 : VPlan := ⟨[⟨"overview_daily", [("days", Value.vNone)]⟩], AVal.aNone, none⟩

/-- Claim C10, counterexample: `validate_plan` does not keep every parameter
key-value pair a call already had.  The input call carries the explicit pair
`days = None` (a JSON `null`); `None` is falsy, so the plan counts as
carrying no time parameter, and the injection *overwrites* the pair with
`days = 9` instead of only adding a missing one. -/
theorem c10_counterexample :
    planC10.calls = [⟨"overview_daily", [("days", Value.vNone)]⟩] ∧
    (validatePlan planC10 "").1.calls = [⟨"overview_daily", [("days", Value.vInt 9)]⟩] ∧
    paramGet ((validatePlan planC10 "").1.calls.headD ⟨"", []⟩).params "days"
      ≠ some Value.vNone := by
  decide

/-- Claim C10, amended: `validate_plan` changes nothing but default
day-counts.  The returned plan has the same number of calls in the same
order with the same tool keys and the same `not_supported`; every parameter
pair whose value is not `None` is preserved; and each call's parameters are
either untouched, or — only when no call of the input carried a truthy time
parameter and the call's tool is day-count-bearing — updated by setting
`days := 9` (adding the key, or overwriting an explicit `None`).  The Python
function operates on a deep copy, so the input object is unchanged; the
embedding expresses this by being a pure function of the input. -/
theorem c10_amended (p : VPlan) (q : String) :
    (validatePlan p q).1.calls.length = p.calls.length ∧
    (validatePlan p q).1.not_supported = p.not_supported ∧
    ∀ i (hi : i < p.calls.length) (hi2 : i < (validatePlan p q).1.calls.length),
      ((validatePlan p q).1.calls.get ⟨i, hi2⟩).tool = (p.calls.get ⟨i, hi⟩).tool ∧
      (∀ k v, v ≠ Value.vNone → paramGet (p.calls.get ⟨i, hi⟩).params k = some v →
        paramGet ((validatePlan p q).1.calls.get ⟨i, hi2⟩).params k = some v) ∧
      (((validatePlan p q).1.calls.get ⟨i, hi2⟩).params = (p.calls.get ⟨i, hi⟩).params ∨
        (planHasTimeParams p.calls = false ∧
         TOOLS_NEED_DAYS.contains (p.calls.get ⟨i, hi⟩).tool = true ∧
         ((validatePlan p q).1.calls.get ⟨i, hi2⟩).params
           = paramSet (p.calls.get ⟨i, hi⟩).params "days" (Value.vInt 9))) := by
  have hns : (validatePlan p q).1.not_supported = p.not_supported :=
    injectDefaultDays_ns p
  have hcase : (validatePlan p q).1.calls = p.calls ∨
      (planHasTimeParams p.calls = false ∧
        (validatePlan p q).1.calls = p.calls.map injectCall) :=
    injectDefaultDays_calls p
  rcases hcase with hcalls | ⟨hnt, hcalls⟩
  · refine ⟨by rw [hcalls], hns, ?_⟩
    intro i hi hi2
    have hget : (validatePlan p q).1.calls.get ⟨i, hi2⟩ = p.calls.get ⟨i, hi⟩ := by
      rw [List.get_of_eq hcalls ⟨i, hi2⟩]
    rw [hget]
    exact ⟨rfl, fun k v _ h => h, Or.inl rfl⟩
  · refine ⟨by rw [hcalls, List.length_map], hns, ?_⟩
    intro i hi hi2
    have hget : (validatePlan p q).1.calls.get ⟨i, hi2⟩
        = injectCall (p.calls.get ⟨i, hi⟩) := by
      rw [List.get_of_eq hcalls ⟨i, hi2⟩, List.get_map]
    rw [hget]
    refine ⟨injectCall_tool _, fun k v hv h => injectCall_preserves _ k v hv h, ?_⟩
    by_cases hni : needsDaysInject (p.calls.get ⟨i, hi⟩) = true
    · right
      have hni' := hni
      unfold needsDaysInject at hni'
      refine ⟨hnt, (Bool.and_eq_true_iff.mp hni').1, ?_⟩
      unfold injectCall
      rw [if_pos hni]
    · left
      unfold injectCall
      rw [if_neg hni]

/-- Witness for C10 (amended): a plan whose call already carries
`dt = "2017-12-03"` passes through `validate_plan` with its tool and its
non-`None` parameter intact. -/
theorem c10_amended_witness :
    ((validatePlan ⟨[⟨"overview_day", [("dt", Value.vStr "2017-12-03")]⟩], AVal.aList [], none⟩
        "看看2017-12-03").1.calls.get ⟨0, by decide⟩).tool = "overview_day" ∧
    paramGet ((validatePlan ⟨[⟨"overview_day", [("dt", Value.vStr "2017-12-03")]⟩], AVal.aList [], none⟩
        "看看2017-12-03").1.calls.get ⟨0, by decide⟩).params "dt"
      = some (Value.vStr "2017-12-03") := by
  have h := c10_amended
    ⟨[⟨"overview_day", [("dt", Value.vStr "2017-12-03")]⟩], AVal.aList [], none⟩ "看看2017-12-03"
  have h0 := h.2.2 0 (by decide) (by decide)
  exact ⟨h0.1, h0.2.1 "dt" (Value.vStr "2017-12-03") (by decide) (by decide)⟩

/-- A plot produced for one call always points at that call's index. -/
theorem plotFor_from_call (w : Bool) (i : Nat) (tk : String) (pl : Plot)
    (h : pl ∈ plotFor w i tk) : pl.from_call = Nat.repr i := by
  unfold plotFor at h
  split_ifs at h <;> simp_all

/-- Every plot of the index-threaded loop points inside the window
`[i, i + length)`. -/
theorem addPlotsAux_mem (w : Bool) : ∀ (cs : List PCall) (i : Nat) (pl : Plot),
    pl ∈ addPlotsAux w i cs →
      ∃ j, i ≤ j ∧ j < i + cs.length ∧ pl.from_call = Nat.repr j := by
  intro cs
  induction cs with
  | nil => intro i pl h; simp [addPlotsAux] at h
  | cons c t ih =>
    intro i pl h
    simp only [addPlotsAux] at h
    rcases List.mem_append.mp h with h1 | h2
    · refine ⟨i, le_refl i, ?_, plotFor_from_call w i c.tool pl h1⟩
      simp only [List.length_cons]
      omega
    · rcases ih (i + 1) pl h2 with ⟨j, hj1, hj2, hj3⟩
      refine ⟨j, by omega, ?_, hj3⟩
      simp only [List.length_cons]
      omega

/-- Claim C9: every plot spec produced by `_add_plots_from_calls` has a
`from_call` that is the decimal index of an existing entry of the call list
(`0 <= j < length`). -/
theorem c9_plots_reference_calls (calls : List PCall) (q : String) (pl : Plot)
    (h : pl ∈ addPlotsFromCalls calls q) :
    ∃ j, j < calls.length ∧ pl.from_call = Nat.repr j := by
  unfold addPlotsFromCalls at h
  rcases addPlotsAux_mem _ calls 0 pl h with ⟨j, _, hj2, hj3⟩
  exact ⟨j, by simpa using hj2, hj3⟩

/-- Witness for C9: the funnel trend plot of a two-call plan points at call
index 1. -/
theorem c9_witness :
    ∃ j, j < ([⟨"overview_day", [("dt", Value.vStr "2017-12-03")]⟩,
               ⟨"funnel_daily", [("days", Value.vInt 9)]⟩] : List PCall).length ∧
      (Plot.mk "trend" "1"
        [("x", Value.vStr "dt"),
         ("ys", Value.vStrList ["uv_to_buyer", "uv_to_cart", "cart_to_buyer"]),
         ("title", Value.vStr "Funnel trend")]).from_call = Nat.repr j :=
  c9_plots_reference_calls
    [⟨"overview_day", [("dt", Value.vStr "2017-12-03")]⟩,
     ⟨"funnel_daily", [("days", Value.vInt 9)]⟩] "转化"
    (Plot.mk "trend" "1"
      [("x", Value.vStr "dt"),
       ("ys", Value.vStrList ["uv_to_buyer", "uv_to_cart", "cart_to_buyer"]),
       ("title", Value.vStr "Funnel trend")])
    (by decide)

/-- Claim C2: for diagnose slots with a truthy `prev_dt` different from a
truthy `dt` (and `not_supported` unset, as unsupported slots short-circuit
synthesis), the rule-based synthesizer emits exactly
`overview_day(prev_dt)`, `overview_day(dt)`, `funnel_daily(days=2,
end_dt=dt)` in that order, appends one `category_contrib_buyers(dt)` call
iff the question names a category (类目), and never exceeds 4 calls. -/
theorem c2_diagnose_two_date (defaultDt question : String) (slots : Slots) (p d : String)
    (hint : slotsIntent slots = "diagnose_generic")
    (hns : slots.not_supported = none)
    (hp : slots.prev_dt = some p) (hp0 : p ≠ "")
    (hd : slots.dt = some d) (hd0 : d ≠ "")
    (hpd : p ≠ d) :
    (planFromSlotsRule defaultDt question slots).calls
      = expectedDiag p d ++
        (if anyContains (pyStrip question) ["类目", "哪个类目"] then
          [PCall.mk "category_contrib_buyers" [("dt", Value.vStr d)]]
         else []) ∧
    (planFromSlotsRule defaultDt question slots).calls.length ≤ 4 := by
  have hcalls : (planFromSlotsRule defaultDt question slots).calls
      = expectedDiag p d ++
        (if anyContains (pyStrip question) ["类目", "哪个类目"] then
          [PCall.mk "category_contrib_buyers" [("dt", Value.vStr d)]]
         else []) := by
    by_cases hcat : anyContains (pyStrip question) ["类目", "哪个类目"] <;>
      simp only [planFromSlotsRule, hns, hint, hp, hd, truthyS, expectedDiag] <;>
      simp [hd0, hp0, hpd, hcat, TOOLS_NEED_DAYS]
  refine ⟨hcalls, ?_⟩
  rw [hcalls]
  by_cases hcat : anyContains (pyStrip question) ["类目", "哪个类目"] <;>
    simp [hcat, expectedDiag]

/-- Witness for C2: two-date diagnose slots with a category question yield
the template plus one category call (4 calls). -/
theorem c2_witness :
    (planFromSlotsRule "2017-12-03" "12月1日到12月2日为什么买家掉了，哪个类目拖累"
        ⟨"diagnose_generic", some "2017-12-02", none, some "2017-12-01", none, [], none⟩).calls
      = expectedDiag "2017-12-01" "2017-12-02" ++
        [PCall.mk "category_contrib_buyers" [("dt", Value.vStr "2017-12-02")]] ∧
    (planFromSlotsRule "2017-12-03" "12月1日到12月2日为什么买家掉了，哪个类目拖累"
        ⟨"diagnose_generic", some "2017-12-02", none, some "2017-12-01", none, [], none⟩).calls.length ≤ 4 := by
  have h := c2_diagnose_two_date "2017-12-03" "12月1日到12月2日为什么买家掉了，哪个类目拖累"
    ⟨"diagnose_generic", some "2017-12-02", none, some "2017-12-01", none, [], none⟩
    "2017-12-01" "2017-12-02" (by decide) rfl rfl (by decide) rfl (by decide) (by decide)
  refine ⟨?_, h.2⟩
  rw [h.1]
  decide

/-- Claim C6, counterexample slots: an unsupported-metric slots record. -/
def slotsC6 : Slots :=
  ⟨"overview_day", some "2017-12-03", none, none, none, [],
   some [("metric", Value.vStr "GMV"), ("reason", Value.vStr "无价格/金额字段")]⟩

/-- Claim C6, counterexample proposal: an external plan that proposes a call
and no `not_supported` marker. -/
def llmC6 : LPlan :=
  ⟨some [⟨"overview_day", "", [("dt", Value.vStr "2017-12-03")]⟩], AVal.aNone, none⟩

/-- Claim C6, counterexample: on the sanitized external path the slots'
`not_supported` is never consulted — only the external plan's own
`not_supported` field is.  With `slots.not_supported` set but a proposal
that contains a call and no marker, the sanitizer returns a plan with one
call and `not_supported = none`, so the invariant fails on that path. -/
theorem c6_counterexample :
    slotsC6.not_supported.isSome = true ∧
    sanitizeLLMPlan "" slotsC6 llmC6
      = some ⟨[⟨"overview_day", [("dt", Value.vStr "2017-12-03")]⟩], [], [], none⟩ := by
  decide

/-- Claim C6, amended: the empty-plan invariant holds keyed on the
*rule-based* path's slots and on the *external plan's own* `not_supported`
field: rule-based synthesis of `not_supported` slots yields an empty plan
carrying the object through, and a truthy external `not_supported` dict is
passed through as an empty plan; but the sanitized external path does not
consult `slots.not_supported`. -/
theorem c6_amended :
    (∀ (defaultDt question : String) (slots : Slots) (ns : Params),
      slots.not_supported = some ns →
        planFromSlotsRule defaultDt question slots
          = ⟨[], [], slots.assumptions, some ns⟩) ∧
    (∀ (question : String) (slots : Slots) (llm : LPlan) (ns : Params),
      llm.not_supported = some ns → ns ≠ [] →
        sanitizeLLMPlan question slots llm
          = some ⟨[], [], slots.assumptions, some ns⟩) := by
  constructor
  · intro defaultDt question slots ns h
    simp [planFromSlotsRule, h]
  · intro question slots llm ns h hne
    have ht : truthyNS (some ns) = true := by
      simpa [truthyNS] using hne
    simp [sanitizeLLMPlan, h, ht]

/-- Witness for C6 (amended): both parts applied at concrete inputs. -/
theorem c6_amended_witness :
    planFromSlotsRule "2017-12-03" "GMV 多少"
        ⟨"unknown", none, none, none, none, ["x"], some [("metric", Value.vStr "GMV")]⟩
      = ⟨[], [], ["x"], some [("metric", Value.vStr "GMV")]⟩ ∧
    sanitizeLLMPlan "GMV 多少"
        ⟨"unknown", none, none, none, none, ["x"], none⟩
        ⟨none, AVal.aNone, some [("reason", Value.vStr "无金额字段")]⟩
      = some ⟨[], [], ["x"], some [("reason", Value.vStr "无金额字段")]⟩ :=
  ⟨c6_amended.1 "2017-12-03" "GMV 多少"
      ⟨"unknown", none, none, none, none, ["x"], some [("metric", Value.vStr "GMV")]⟩
      [("metric", Value.vStr "GMV")] rfl,
   c6_amended.2 "GMV 多少"
      ⟨"unknown", none, none, none, none, ["x"], none⟩
      ⟨none, AVal.aNone, some [("reason", Value.vStr "无金额字段")]⟩
      [("reason", Value.vStr "无金额字段")] rfl (by decide)⟩

/-- Two-digit zero-padding is monotone on day numbers. -/
theorem pad2_mono : ∀ d1 : Nat, d1 < 32 → ∀ d2 : Nat, d2 < 32 → d1 ≤ d2 →
    pyStrLe (pad2 d1) (pad2 d2) = true := by
  decide

/-- Same-month formatted dates compare like their day numbers. -/
theorem cnDate_mono (mo d1 d2 : Nat) (h1 : d1 ≤ 31) (h2 : d2 ≤ 31) (h : d1 ≤ d2) :
    pyStrLe (cnDate mo d1) (cnDate mo d2) = true := by
  have hdata : ∀ x : Nat,
      (cnDate mo x).data = ("2017-" ++ pad2 mo ++ "-").data ++ (pad2 x).data := by
    intro x
    exact String.data_append ("2017-" ++ pad2 mo ++ "-") (pad2 x)
  show pyLeChars (cnDate mo d1).data (cnDate mo d2).data = true
  rw [hdata d1, hdata d2, pyLeChars_append_left]
  exact pad2_mono d1 (by omega) d2 (by omega) h

/-- Whatever pair the range block returns is ordered. -/
theorem rangeDetect_ordered (q : String) (p d : String)
    (h : rangeDetect q = some (p, d)) : pyStrLe p d = true := by
  unfold rangeDetect at h
  split at h
  · next m1 d1 m2 d2 hm =>
    by_cases hv : validMD4 m1 d1 m2 d2 = true
    · rw [if_pos hv] at h
      by_cases hle : pyStrLe (cnDate m1 d1) (cnDate m2 d2) = true
      · rw [if_pos hle] at h
        obtain ⟨rfl, rfl⟩ : cnDate m1 d1 = p ∧ cnDate m2 d2 = d := by
          simpa using h
        exact hle
      · rw [if_neg hle] at h
        obtain ⟨rfl, rfl⟩ : cnDate m2 d2 = p ∧ cnDate m1 d1 = d := by
          simpa using h
        exact pyStrLe_total _ _ (by simpa using hle)
    · rw [if_neg hv] at h
      exact absurd h (by simp)
  · next hm =>
    split at h
    · next mo d1 d2 hm2 =>
      by_cases hv : (validMD mo d1 && validMD mo d2) = true
      · rw [if_pos hv] at h
        have hb := Bool.and_eq_true_iff.mp hv
        have hb1 : d1 ≤ 31 := by
          have := hb.1
          simp [validMD] at this
          omega
        have hb2 : d2 ≤ 31 := by
          have := hb.2
          simp [validMD] at this
          omega
        by_cases hle : d1 ≤ d2
        · rw [if_pos hle] at h
          obtain ⟨rfl, rfl⟩ : cnDate mo d1 = p ∧ cnDate mo d2 = d := by
            simpa using h
          exact cnDate_mono mo d1 d2 hb1 hb2 hle
        · rw [if_neg hle] at h
          obtain ⟨rfl, rfl⟩ : cnDate mo d2 = p ∧ cnDate mo d1 = d := by
            simpa using h
          exact cnDate_mono mo d2 d1 hb2 hb1 (by omega)
      · rw [if_neg hv] at h
        exact absurd h (by simp)
    · next hm2 =>
      exact absurd h (by simp)

/-- Claim C8: whenever the Normalizer's own two-endpoint range detection
fires on the question (either "month D1 to month D2" or same-month
"month D1 to D2" phrasing, with valid month and day numbers), the fallback
normalization sets both `prev_dt` and `dt`, and the pair is ordered
`prev_dt <= dt` (Python string comparison) regardless of which endpoint
came first in the text. -/
theorem c8_range_ordered (question : String) (p d : String)
    (h : rangeDetect (pyStrip question) = some (p, d)) :
    (fallbackNormalize question).prev_dt = some p ∧
    (fallbackNormalize question).dt = some d ∧
    pyStrLe p d = true := by
  refine ⟨?_, ?_, rangeDetect_ordered _ p d h⟩
  · simp [fallbackNormalize, h]
  · simp [fallbackNormalize, h]

/-- Witness for C8: the endpoints appear in reversed order in the text and
come out ordered. -/
theorem c8_witness :
    (fallbackNormalize "12月3日到12月1日买家变化").prev_dt = some "2017-12-01" ∧
    (fallbackNormalize "12月3日到12月1日买家变化").dt = some "2017-12-03" ∧
    pyStrLe "2017-12-01" "2017-12-03" = true :=
  c8_range_ordered "12月3日到12月1日买家变化" "2017-12-01" "2017-12-03" (by decide)

/-- The days clamp never changes a tool key. -/
theorem clampCall_tool (c : PCall) : (clampCall c).tool = c.tool := by
  unfold clampCall
  split
  · split
    · rfl
    · split <;> rfl
  · rfl

/-- The template calls are unchanged by the 1-90 days clamp. -/
theorem clampCall_expected (p d : String) :
    (expectedDiag p d).map clampCall = expectedDiag p d := by
  simp [expectedDiag, clampCall, paramGet, paramSet, pyToInt]

/-- The diagnose override, written out, on a mismatching call list. -/
theorem diagnoseOverride_replaces (intent : String) (prev dt : Option String)
    (fc : List PCall) (p d : String)
    (hint : intent = "diagnose_generic")
    (hp : prev = some p) (hp0 : p ≠ "")
    (hd : dt = some d) (hd0 : d ≠ "") (hpd : p ≠ d)
    (hmis : (fc.take 3).map gotKey ≠ (expectedDiag p d).map gotKey) :
    diagnoseOverride intent prev dt fc
      = expectedDiag p d ++
        ((fc.filter (fun c => c.tool = "category_contrib_buyers")).take 1).map
          (fun c => ⟨c.tool, paramSet c.params "dt" (Value.vStr d)⟩) := by
  unfold diagnoseOverride
  rw [hint, hp, hd]
  simp only [Option.getD_some]
  split_ifs with h1
  · rfl
  · exfalso
    apply h1
    simp [truthyS, hp0, hd0, hpd]

/-- Claim C3: for a diagnose two-date slots record, an externally-proposed
plan that passes the whitelist and coverage checks (`sanitizedCalls`
succeeds with unified calls `fc`) and whose first three calls do not match
the canonical template is *replaced*: the sanitized plan starts with the
exact three-call template, holds at most 4 calls, and any fourth call is a
single trailing `category_contrib_buyers` call taken from the proposal. -/
theorem c3_sanitizer_template (question : String) (slots : Slots) (llm : LPlan)
    (fc : List PCall) (vp : VPlan) (p d : String)
    (hint : slotsIntent slots = "diagnose_generic")
    (hp : slots.prev_dt = some p) (hp0 : p ≠ "")
    (hd : slots.dt = some d) (hd0 : d ≠ "") (hpd : p ≠ d)
    (hns : truthyNS llm.not_supported = false)
    (hs : sanitizedCalls question llm = some (fc, vp))
    (hmis : (fc.take 3).map gotKey ≠ (expectedDiag p d).map gotKey) :
    ∃ out, sanitizeLLMPlan question slots llm = some out ∧
      out.calls.take 3 = expectedDiag p d ∧
      out.calls.length ≤ 4 ∧
      ∀ c ∈ out.calls.drop 3,
        c.tool = "category_contrib_buyers" ∧
        ∃ c0 ∈ fc, c0.tool = "category_contrib_buyers" := by
  have hover := diagnoseOverride_replaces (slotsIntent slots) slots.prev_dt slots.dt fc p d
    hint hp hp0 hd hd0 hpd hmis
  have hplan : sanitizeLLMPlan question slots llm
      = some ⟨(diagnoseOverride (slotsIntent slots) slots.prev_dt slots.dt fc).map clampCall,
              addPlotsFromCalls
                ((diagnoseOverride (slotsIntent slots) slots.prev_dt slots.dt fc).map clampCall)
                question,
              mergeAssumptions slots.assumptions vp.assumptions, none⟩ := by
    unfold sanitizeLLMPlan
    rw [hns]
    simp only [Bool.false_eq_true, if_false, hs]
  set extraM := ((fc.filter (fun c => c.tool = "category_contrib_buyers")).take 1).map
      (fun c => (⟨c.tool, paramSet c.params "dt" (Value.vStr d)⟩ : PCall)) with hextra
  have hcalls : (diagnoseOverride (slotsIntent slots) slots.prev_dt slots.dt fc).map clampCall
      = expectedDiag p d ++ extraM.map clampCall := by
    rw [hover, List.map_append, clampCall_expected]
  refine ⟨_, hplan, ?_, ?_, ?_⟩
  · rw [hcalls]
    rw [show (3 : Nat) = (expectedDiag p d).length from rfl, List.take_left]
  · rw [hcalls, List.length_append]
    have h1 : (extraM.map clampCall).length ≤ 1 := by
      rw [List.length_map, hextra, List.length_map]
      exact List.length_take_le 1 _
    have h2 : (expectedDiag p d).length = 3 := rfl
    omega
  · rw [hcalls]
    rw [show (3 : Nat) = (expectedDiag p d).length from rfl, List.drop_left]
    intro c hc
    rcases List.mem_map.mp hc with ⟨c1, hc1, rfl⟩
    rcases List.mem_map.mp hc1 with ⟨c2, hc2, rfl⟩
    have hc2f := List.mem_of_mem_take hc2
    rcases List.mem_filter.mp hc2f with ⟨hc2fc, hc2p⟩
    have htool : c2.tool = "category_contrib_buyers" := by simpa using hc2p
    refine ⟨?_, c2, hc2fc, htool⟩
    rw [clampCall_tool]
    exact htool

/-- C3 witness slots: a genuine two-date diagnose. -/
def slotsC3w : Slots :=
  ⟨"diagnose_generic", some "2017-12-02", none, some "2017-12-01", none, [], none⟩

/-- C3 witness proposal: whitelisted calls that deviate from the
template (an `overview_daily` trend plus a category call). -/
def llmC3w : LPlan :=
  ⟨some [⟨"overview_daily", "", [("days", Value.vInt 9)]⟩,
         ⟨"category_contrib_buyers", "", [("dt", Value.vStr "x"), ("days", Value.vInt 200)]⟩],
   AVal.aNone, none⟩

/-- C3 witness: the unified calls after validation. -/
def fcC3w : List PCall :=
  [⟨"overview_daily", [("days", Value.vInt 9)]⟩,
   ⟨"category_contrib_buyers", [("dt", Value.vStr "x"), ("days", Value.vInt 200)]⟩]

/-- C3 witness: the validated plan. -/
def vpC3w : VPlan :=
  ⟨[⟨"overview_daily", [("days", Value.vInt 9)]⟩,
    ⟨"category_contrib_buyers", [("dt", Value.vStr "x"), ("days", Value.vInt 200)]⟩],
   AVal.aDict [], none⟩

/-- Witness for C3: the deviating proposal is replaced by the canonical
template plus the proposal's category call. -/
theorem c3_witness :
    ∃ out, sanitizeLLMPlan "" slotsC3w llmC3w = some out ∧
      out.calls.take 3 = expectedDiag "2017-12-01" "2017-12-02" ∧
      out.calls.length ≤ 4 ∧
      ∀ c ∈ out.calls.drop 3,
        c.tool = "category_contrib_buyers" ∧
        ∃ c0 ∈ fcC3w, c0.tool = "category_contrib_buyers" :=
  c3_sanitizer_template "" slotsC3w llmC3w fcC3w vpC3w "2017-12-01" "2017-12-02"
    (by decide) rfl (by decide) rfl (by decide) (by decide) (by decide) (by decide) (by decide)

end DataAgent
